import Mathlib

/-!
Verification of the live-mode mirroring engine of tgcf (`src/tgcf/live.py`).

The handlers `new_message_handler`, `edited_message_handler` and
`deleted_message_handler` are translated into pure Lean functions.  The
module-level Python dict `st.stored` (insertion-ordered mapping from an
event identity key to a per-destination dict of forwarded message handles)
is embedded as an association list with Python-dict semantics: assignment
to an existing key keeps its position, assignment to a fresh key appends at
the end, iteration runs in insertion order.  Transport calls (send, forward,
edit, delete) and plugin invocations are recorded as an effect trace, and
their results are supplied by environment oracles, since the transport and
the plugin pipeline are external collaborators.
-/

set_option autoImplicit false

namespace Tgcf

/-- Modelled from the spec: the Identity Deriver (`st.EventUid` in
`tgcf/storage.py`, which is not part of the given sources) derives a stable
key from the (source chat id, source message id) pair; equal pairs give
equal keys, also for the synthetic `DummyEvent` lookup used in reply
resolution. -/
structure EventUid where
  chat_id : Int
  msg_id : Int
deriving DecidableEq

/-- A handle to a forwarded message living in a destination chat, as
returned by the transport.  Only its id is observable to the handlers
(used as a reply target). -/
structure Handle where
  id : Int
deriving DecidableEq

/-- The transformed message produced by `apply_plugins`; the handlers only
read its text.  (`tm.reply_to` is modelled directly in the send effect.) -/
structure TM where
  text : String
deriving DecidableEq

/-- A source message as the handlers read it: its id, text, optional media
and optional album group id. -/
structure Message where
  id : Int
  text : String
  media : Option Nat
  grouped_id : Option Int
deriving DecidableEq

/-- A per-destination record of forwarded handles: the Python dict stored
under one event uid, `{destination chat id: forwarded message or None}`. -/
abbrev ForwardRecord := List (Int × Option Handle)

/-- The forward-state store `st.stored`: a Python dict from event uid to
per-destination record, in insertion order. -/
abbrev Store := List (EventUid × ForwardRecord)

/-- Python `stored.get(k)`: value of the first (unique) matching key. -/
def dictGet : Store → EventUid → Option ForwardRecord
  | [], _ => none
  | p :: ps, k => if p.1 = k then some p.2 else dictGet ps k

/-- Python `stored[k] = v`: overwrite in place (keeping the key's position)
when present, append at the end when fresh. -/
def dictSet : Store → EventUid → ForwardRecord → Store
  | [], k, v => [(k, v)]
  | p :: ps, k, v => if p.1 = k then (k, v) :: ps else p :: dictSet ps k v

/-- Python `record.get(d)` collapsed through the use sites: `None` both for
an absent destination and for a stored `None` handle (the code only ever
tests the result for truthiness or reads `.id`). -/
def recGet : ForwardRecord → Int → Option Handle
  | [], _ => none
  | p :: ps, d => if p.1 = d then p.2 else recGet ps d

/-- Python `record.update({d: h})`: overwrite in place when the destination
is present, append otherwise. -/
def recSet : ForwardRecord → Int → Option Handle → ForwardRecord
  | [], d, v => [(d, v)]
  | p :: ps, d, v => if p.1 = d then (d, v) :: ps else p :: recSet ps d v

/-- Python `st.stored[k].update({d: h})`: update one destination's handle
inside the record stored under `k` (the handlers only call it when `k` is
present). -/
def storeRecUpdate : Store → EventUid → Int → Option Handle → Store
  | [], _, _, _ => []
  | p :: ps, k, d, v =>
      if p.1 = k then (p.1, recSet p.2 d v) :: ps
      else p :: storeRecUpdate ps k d v

/-- Lines 32-37 of `live.py`: `exceeding = len(stored) - KEEP_LAST_MANY`;
when positive, delete the first key in iteration order (the oldest entry)
and stop after one deletion. -/
def storageCleanup (kmax : Nat) (s : Store) : Store :=
  if kmax < s.length then s.tail else s

/-- Config values read by the handlers (`const.KEEP_LAST_MANY`,
`CONFIG.show_forwarded_from`, `CONFIG.live.delete_on_edit`; their modules
are not part of the given sources, the values are the spec's capacity K,
attribution flag and retract sentinel). -/
structure Config where
  keep_last_many : Nat
  show_forwarded_from : Bool
  delete_on_edit : String

/-- The handlers' environment: config, routing table `config.from_to`, the
plugin pipeline `apply_plugins` (drop = `none`), and transport oracles
giving the result of `send_message`, `client.send_file` and
`event.forward_to` per destination. -/
structure Env where
  cfg : Config
  from_to : Int → Option (List Int)
  apply_plugins : Message → Option TM
  sendRes : Int → Option Handle
  sendFileRes : Int → List Handle
  forwardRes : Int → List Handle

/-- One observable action of a handler, in execution order: a plugin
invocation or a transport call. -/
inductive Effect where
  | transform (m : Message)
  | send (dest : Int) (text : String) (reply_to : Option Int)
  | sendFile (dest : Int) (media : List Nat) (captions : List String)
  | forwardTo (dest : Int)
  | editHandle (h : Handle) (text : String)
  | deleteHandle (h : Handle)
  | deleteSource (chat_id : Int) (msg_id : Int)
deriving DecidableEq

/-- Python truthiness of `event.message.grouped_id` (`None` and `0` are
falsy). -/
def groupedTruthy : Option Int → Bool
  | none => false
  | some g => if g = 0 then false else true

/-- An inbound event for `new_message_handler`: a single new message
(with its reply flag and `reply_to_msg_id`) or an album. -/
inductive NMEvent where
  | single (chat_id : Int) (message : Message) (reply : Bool) (reply_to_msg_id : Int)
  | album (chat_id : Int) (album_id : Int) (messages : List Message)
deriving DecidableEq

/-- `event.chat_id`. -/
def nmChatId : NMEvent → Int
  | .single c _ _ _ => c
  | .album c _ _ => c

/-- `st.EventUid(event)`: chat id paired with the event's message (or
album) id. -/
def nmUid : NMEvent → EventUid
  | .single c m _ _ => ⟨c, m.id⟩
  | .album c aid _ => ⟨c, aid⟩

/-- Lines 49-54 of `live.py`: collect `(media, caption)` across the album's
messages, in order, keeping only messages that carry media. -/
def collectMedia : List Message → List (Nat × String)
  | [] => []
  | m :: ms =>
      match m.media with
      | some md => (md, m.text) :: collectMedia ms
      | none => collectMedia ms

/-- The shape shared by the four per-destination fan-out loops of
`new_message_handler`: for each destination in order, perform one transport
call (whose effect is `eff d` and whose recorded result is `res d`) and
update that destination's handle inside the record stored under `uid`. -/
def fanoutLoop (uid : EventUid) (res : Int → Option Handle) (eff : Int → Effect) :
    List Int → Store → Store × List Effect
  | [], s => (s, [])
  | d :: ds, s =>
      let s1 := storeRecUpdate s uid d (res d)
      let rest := fanoutLoop uid res eff ds s1
      (rest.1, eff d :: rest.2)

/-- Lines 66-72 of `live.py`, inner loop: edit each destination's recorded
handle (when present; forwarded-message handles always support `edit`). -/
def destEdits (r : ForwardRecord) (t : String) : List Int → List Effect
  | [] => []
  | d :: ds =>
      (match recGet r d with
       | some h => [Effect.editHandle h t]
       | none => []) ++ destEdits r t ds

/-- Lines 65-72 of `live.py`: after album fan-out, run `apply_plugins` on
each original album message and, when the transformed text differs, edit
every recorded destination handle to it.  `r` is the record stored under
the album's uid (the store does not change during this phase). -/
def captionEdits (env : Env) (r : ForwardRecord) (dest : List Int) : List Message → List Effect
  | [] => []
  | m :: ms =>
      Effect.transform m ::
        (match env.apply_plugins m with
         | some tm => if tm.text = m.text then [] else destEdits r tm.text dest
         | none => []) ++ captionEdits env r dest ms

/-- Lines 39-72 of `live.py`: the album branch, entered with the empty
record already stored under `uid` (store `s1`).  With attribution enabled,
forward the album per destination; otherwise collect media and captions and
issue one grouped send per destination (none when the album has no media).
Record the first resulting handle per destination, then run the caption
edit phase. -/
def albumBranch (env : Env) (uid : EventUid) (dest : List Int) (messages : List Message)
    (s1 : Store) : Store × List Effect :=
  let fanres :=
    if env.cfg.show_forwarded_from then
      fanoutLoop uid (fun d => (env.forwardRes d).head?) Effect.forwardTo dest s1
    else
      let collected := collectMedia messages
      if collected.isEmpty then (s1, [])
      else
        fanoutLoop uid (fun d => (env.sendFileRes d).head?)
          (fun d => Effect.sendFile d (collected.map Prod.fst) (collected.map Prod.snd))
          dest s1
  (fanres.1, fanres.2 ++ captionEdits env ((dictGet fanres.1 uid).getD []) dest messages)

/-- Lines 73-93 of `live.py`: the single-message branch, entered after
cleanup (store `s0`).  Messages carrying a (truthy) album group id are
ignored here; otherwise run the plugins (drop means return with no record),
store an empty record, then fan out — for a reply whose replied-to record
is found and non-empty, with that destination's recorded handle id as the
per-destination reply target, else (non-reply) with no reply target; a
reply whose replied-to record is absent or empty sends nothing. -/
def singleBranch (env : Env) (chat_id : Int) (message : Message) (reply : Bool)
    (rid : Int) (uid : EventUid) (dest : List Int) (s0 : Store) : Store × List Effect :=
  if groupedTruthy message.grouped_id then (s0, [])
  else
    match env.apply_plugins message with
    | none => (s0, [Effect.transform message])
    | some tm =>
        let s1 := dictSet s0 uid []
        if reply then
          match dictGet s1 ⟨chat_id, rid⟩ with
          | some rf =>
              if rf.isEmpty then (s1, [Effect.transform message])
              else
                let fr := fanoutLoop uid env.sendRes
                  (fun d => Effect.send d tm.text ((recGet rf d).map Handle.id)) dest s1
                (fr.1, Effect.transform message :: fr.2)
          | none => (s1, [Effect.transform message])
        else
          let fr := fanoutLoop uid env.sendRes (fun d => Effect.send d tm.text none) dest s1
          (fr.1, Effect.transform message :: fr.2)

/-- Lines 20-93 of `live.py`: `new_message_handler`.  Unrouted chats are
ignored; otherwise the storage cleanup runs first (before and independently
of any insertion), then the album or single-message branch. -/
def newMessageHandler (env : Env) (ev : NMEvent) (s : Store) : Store × List Effect :=
  match env.from_to (nmChatId ev) with
  | none => (s, [])
  | some dest =>
      let s0 := storageCleanup env.cfg.keep_last_many s
      match ev with
      | .album _ _ messages => albumBranch env (nmUid ev) dest messages (dictSet s0 (nmUid ev) [])
      | .single chat_id message reply rid => singleBranch env chat_id message reply rid (nmUid ev) dest s0

/-- Lines 109-119 of `live.py`: the loop over a found (non-empty) record.
Per stored entry: on the sentinel text, delete the destination handle (when
present) and the source message; otherwise run the plugins and, when they
return a message with non-empty text and the handle is present, edit the
handle's text. -/
def trackedEditEffects (env : Env) (chat_id : Int) (m : Message) : ForwardRecord → List Effect
  | [] => []
  | p :: ps =>
      (if env.cfg.delete_on_edit = m.text then
        (match p.2 with
         | some h => [Effect.deleteHandle h]
         | none => []) ++ [Effect.deleteSource chat_id m.id]
      else
        Effect.transform m ::
          match env.apply_plugins m, p.2 with
          | some tm, some h => if tm.text = "" then [] else [Effect.editHandle h tm.text]
          | _, _ => [])
      ++ trackedEditEffects env chat_id m ps

/-- Lines 121-125 of `live.py`: the record-not-found fallback — per
destination, run the plugins and send the transformed message (no reply
target, nothing recorded). -/
def fallbackSends (env : Env) (m : Message) : List Int → List Effect
  | [] => []
  | d :: ds =>
      Effect.transform m ::
        (match env.apply_plugins m with
         | some tm => [Effect.send d tm.text none]
         | none => []) ++ fallbackSends env m ds

/-- Lines 96-125 of `live.py`: `edited_message_handler`.  The store is
never written: a found non-empty record drives per-entry deletes or edits,
a missing (or empty, hence falsy) record drives the fresh-send fallback. -/
def editedMessageHandler (env : Env) (chat_id : Int) (message : Message) (s : Store) :
    Store × List Effect :=
  match env.from_to chat_id with
  | none => (s, [])
  | some dest =>
      match dictGet s ⟨chat_id, message.id⟩ with
      | some r =>
          if r.isEmpty then (s, fallbackSends env message dest)
          else (s, trackedEditEffects env chat_id message r)
      | none => (s, fallbackSends env message dest)

/-- Lines 128-141 of `live.py`: `deleted_message_handler`.  The store is
never written: when the record is found (and non-empty, hence truthy),
delete every present destination handle. -/
def deletedMessageHandler (env : Env) (chat_id : Int) (msg_id : Int) (s : Store) :
    Store × List Effect :=
  match env.from_to chat_id with
  | none => (s, [])
  | some _ =>
      match dictGet s ⟨chat_id, msg_id⟩ with
      | some r =>
          if r.isEmpty then (s, [])
          else (s, r.filterMap (fun p => p.2.map Effect.deleteHandle))
      | none => (s, [])

/-- Predicate singling out grouped-send (`send_file`) effects. -/
def Effect.isSendFile : Effect → Bool
  | .sendFile _ _ _ => true
  | _ => false

/-- Predicate singling out plugin (`apply_plugins`) invocations. -/
def Effect.isTransform : Effect → Bool
  | .transform _ => true
  | _ => false

/-- Number of plugin invocations recorded in an effect trace. -/
def countTransform (es : List Effect) : Nat :=
  es.countP Effect.isTransform

/-- A concrete environment for witnesses and counterexamples: chat 0 routes
to destinations 1 and 2, the plugins drop exactly the text "drop" and
otherwise keep the text, the transport returns handle 100+d for a plain
send, one message with handle 200+d for a grouped send and one with 300+d
for an attributed forward to destination d. -/
def envA : Env where
  cfg := { keep_last_many := 5, show_forwarded_from := false, delete_on_edit := "DELETE" }
  from_to := fun c => if c = 0 then some [1, 2] else none
  apply_plugins := fun m => if m.text = "drop" then none else some ⟨m.text⟩
  sendRes := fun d => some ⟨d + 100⟩
  sendFileRes := fun d => [⟨d + 200⟩]
  forwardRes := fun d => [⟨d + 300⟩]

/-- `envA` with capacity K = 1. -/
def envK1 : Env :=
  { envA with cfg := { keep_last_many := 1, show_forwarded_from := false, delete_on_edit := "DELETE" } }

/-- `envA` with capacity K = 2. -/
def envK2 : Env :=
  { envA with cfg := { keep_last_many := 2, show_forwarded_from := false, delete_on_edit := "DELETE" } }

/-- Sample single messages A, B, C, D (ids 10-13). -/
def msgA : Message := ⟨10, "a", none, none⟩

/-- Second sample message. -/
def msgB : Message := ⟨11, "b", none, none⟩

/-- Third sample message. -/
def msgC : Message := ⟨12, "c", none, none⟩

/-- Fourth sample message. -/
def msgD : Message := ⟨13, "d", none, none⟩

/-- New-message events for the sample messages in chat 0. -/
def evA : NMEvent := .single 0 msgA false 0

/-- Event inserting `msgB`. -/
def evB : NMEvent := .single 0 msgB false 0

/-- Event inserting `msgC`. -/
def evC : NMEvent := .single 0 msgC false 0

/-- Event inserting `msgD`. -/
def evD : NMEvent := .single 0 msgD false 0

/-- Store after inserting A, B, C at capacity K = 2. -/
def put3 : Store :=
  (newMessageHandler envK2 evC (newMessageHandler envK2 evB (newMessageHandler envK2 evA []).1).1).1

/-- Store after additionally inserting D at capacity K = 2. -/
def put4 : Store := (newMessageHandler envK2 evD put3).1

/-- A reply message (id 20) whose replied-to message (id 19) has no record. -/
def msgR : Message := ⟨20, "t", none, none⟩

/-- A store holding a record for message 5 of chat 0 with a handle at
destination 1 and a failed send (None) at destination 2. -/
def sReply : Store := [(⟨0, 5⟩, [(1, some ⟨7⟩), (2, none)])]

/-- A reply message (id 6) to the tracked message 5. -/
def msgQ : Message := ⟨6, "q", none, none⟩

/-- Store after mirroring `msgA` through `envA`. -/
def sM1 : Store := (newMessageHandler envA evA []).1

/-- `msgA` edited to the retract sentinel text. -/
def msgAdel : Message := ⟨10, "DELETE", none, none⟩

/-- `msgA` edited to fresh text. -/
def msgAedit : Message := ⟨10, "new", none, none⟩

/-- An edited message (id 30) that was never mirrored. -/
def msgE : Message := ⟨30, "e", none, none⟩

/-- The spec's album scenario: three photos with captions x, y, z. -/
def albumMsgs : List Message :=
  [⟨41, "x", some 1, some 9⟩, ⟨42, "y", some 2, some 9⟩, ⟨43, "z", some 3, some 9⟩]

/-- A store already over capacity K = 2 (three entries). -/
def sOver : Store := [(⟨0, 1⟩, []), (⟨0, 2⟩, []), (⟨0, 3⟩, [])]

/-- A message the plugins drop. -/
def msgDrop : Message := ⟨50, "drop", none, none⟩

/-- A store holding an empty record for message 60 of chat 0. -/
def sEmptyRec : Store := [(⟨0, 60⟩, [])]

/-- An edit of the message (id 60) whose record is empty. -/
def msgF : Message := ⟨60, "f", none, none⟩

/-- A two-entry store used to witness key preservation. -/
def sTwo : Store := [(⟨0, 1⟩, []), (⟨0, 2⟩, [])]

/-- Looking up the key just written returns the written record. -/
theorem dictGet_dictSet_self (s : Store) (k : EventUid) (v : ForwardRecord) :
    dictGet (dictSet s k v) k = some v := by
  induction s with
  | nil => simp [dictGet, dictSet]
  | cons p ps ih =>
      by_cases h : p.1 = k
      · simp [dictGet, dictSet, h]
      · simp [dictGet, dictSet, h, ih]

/-- Writing a record adds at most one entry. -/
theorem dictSet_length_le (s : Store) (k : EventUid) (v : ForwardRecord) :
    (dictSet s k v).length ≤ s.length + 1 := by
  induction s with
  | nil => simp [dictSet]
  | cons p ps ih =>
      by_cases h : p.1 = k
      · simp [dictSet, h]
      · simpa [dictSet, h] using Nat.succ_le_succ ih

/-- Writing a record never removes a key. -/
theorem dictSet_keys_mem (s : Store) (k : EventUid) (v : ForwardRecord) (k2 : EventUid)
    (h : k2 ∈ s.map Prod.fst) : k2 ∈ (dictSet s k v).map Prod.fst := by
  induction s with
  | nil => simp at h
  | cons p ps ih =>
      by_cases hpk : p.1 = k
      · simp only [dictSet, if_pos hpk, List.map_cons]
        rcases List.mem_cons.mp h with h1 | h1
        · exact List.mem_cons.mpr (Or.inl (hpk ▸ h1))
        · exact List.mem_cons_of_mem _ h1
      · simp only [dictSet, if_neg hpk, List.map_cons]
        rcases List.mem_cons.mp h with h1 | h1
        · exact List.mem_cons.mpr (Or.inl h1)
        · exact List.mem_cons_of_mem _ (ih h1)

/-- Updating one destination's handle keeps the key sequence unchanged. -/
theorem storeRecUpdate_keys (s : Store) (k : EventUid) (d : Int) (v : Option Handle) :
    (storeRecUpdate s k d v).map Prod.fst = s.map Prod.fst := by
  induction s with
  | nil => rfl
  | cons p ps ih =>
      by_cases h : p.1 = k
      · simp [storeRecUpdate, h]
      · simp [storeRecUpdate, h, ih]

/-- Updating one destination's handle keeps the store size unchanged. -/
theorem storeRecUpdate_length (s : Store) (k : EventUid) (d : Int) (v : Option Handle) :
    (storeRecUpdate s k d v).length = s.length := by
  induction s with
  | nil => rfl
  | cons p ps ih =>
      by_cases h : p.1 = k
      · simp [storeRecUpdate, h]
      · simp [storeRecUpdate, h, ih]

/-- Updating one destination's handle rewrites exactly the stored record. -/
theorem dictGet_storeRecUpdate_self (s : Store) (k : EventUid) (d : Int) (v : Option Handle)
    (r : ForwardRecord) (h : dictGet s k = some r) :
    dictGet (storeRecUpdate s k d v) k = some (recSet r d v) := by
  induction s with
  | nil => simp [dictGet] at h
  | cons p ps ih =>
      by_cases hpk : p.1 = k
      · simp only [dictGet, if_pos hpk, Option.some.injEq] at h
        simp [storeRecUpdate, dictGet, hpk, h]
      · simp only [dictGet, if_neg hpk] at h
        simp [storeRecUpdate, dictGet, hpk, ih h]

/-- The fan-out loop emits exactly one transport effect per destination,
in order. -/
theorem fanoutLoop_effects (uid : EventUid) (res : Int → Option Handle) (eff : Int → Effect) :
    ∀ (ds : List Int) (s : Store), (fanoutLoop uid res eff ds s).2 = ds.map eff := by
  intro ds
  induction ds with
  | nil => intro s; rfl
  | cons d ds ih => intro s; simp [fanoutLoop, ih]

/-- The fan-out loop keeps the key sequence unchanged. -/
theorem fanoutLoop_keys (uid : EventUid) (res : Int → Option Handle) (eff : Int → Effect) :
    ∀ (ds : List Int) (s : Store),
      (fanoutLoop uid res eff ds s).1.map Prod.fst = s.map Prod.fst := by
  intro ds
  induction ds with
  | nil => intro s; rfl
  | cons d ds ih => intro s; simp [fanoutLoop, ih, storeRecUpdate_keys]

/-- The fan-out loop keeps the store size unchanged. -/
theorem fanoutLoop_length (uid : EventUid) (res : Int → Option Handle) (eff : Int → Effect) :
    ∀ (ds : List Int) (s : Store), (fanoutLoop uid res eff ds s).1.length = s.length := by
  intro ds
  induction ds with
  | nil => intro s; rfl
  | cons d ds ih => intro s; simp [fanoutLoop, ih, storeRecUpdate_length]

/-- The fan-out loop folds each destination's transport result into the
record stored under its uid. -/
theorem fanoutLoop_get (uid : EventUid) (res : Int → Option Handle) (eff : Int → Effect) :
    ∀ (ds : List Int) (s : Store) (r : ForwardRecord), dictGet s uid = some r →
      dictGet (fanoutLoop uid res eff ds s).1 uid
        = some (ds.foldl (fun a d => recSet a d (res d)) r) := by
  intro ds
  induction ds with
  | nil => intro s r h; simpa [fanoutLoop] using h
  | cons d ds ih =>
      intro s r h
      simpa [fanoutLoop] using ih _ _ (dictGet_storeRecUpdate_self s uid d (res d) r h)

/-- A key occurring past the head still occurs in the whole store. -/
theorem mem_keys_of_mem_tail (s : Store) (k : EventUid) (h : k ∈ s.tail.map Prod.fst) :
    k ∈ s.map Prod.fst := by
  cases s with
  | nil => simp at h
  | cons p ps => exact List.mem_cons_of_mem _ h

/-- Cleanup never removes a key other than the head (the oldest entry). -/
theorem storageCleanup_keys_of_tail (kmax : Nat) (s : Store) (k : EventUid)
    (h : k ∈ s.tail.map Prod.fst) : k ∈ (storageCleanup kmax s).map Prod.fst := by
  unfold storageCleanup
  split
  · exact h
  · exact mem_keys_of_mem_tail s k h

/-- Cleanup is the identity at or under capacity. -/
theorem storageCleanup_eq_of_le (kmax : Nat) (s : Store) (h : s.length ≤ kmax) :
    storageCleanup kmax s = s := by
  unfold storageCleanup
  split
  · omega
  · rfl

/-- Cleanup brings a store of at most K+1 entries down to at most K. -/
theorem storageCleanup_length_le (kmax : Nat) (s : Store) (h : s.length ≤ kmax + 1) :
    (storageCleanup kmax s).length ≤ kmax := by
  unfold storageCleanup
  split
  · simp only [List.length_tail]; omega
  · omega

/-- The album branch keeps the key sequence of the store it receives. -/
theorem albumBranch_keys (env : Env) (uid : EventUid) (dest : List Int)
    (messages : List Message) (s1 : Store) :
    (albumBranch env uid dest messages s1).1.map Prod.fst = s1.map Prod.fst := by
  unfold albumBranch
  dsimp only
  split
  · exact fanoutLoop_keys ..
  · split
    · rfl
    · exact fanoutLoop_keys ..

/-- The album branch keeps the size of the store it receives. -/
theorem albumBranch_length (env : Env) (uid : EventUid) (dest : List Int)
    (messages : List Message) (s1 : Store) :
    (albumBranch env uid dest messages s1).1.length = s1.length := by
  unfold albumBranch
  dsimp only
  split
  · exact fanoutLoop_length ..
  · split
    · rfl
    · exact fanoutLoop_length ..

/-- The single-message branch never removes a key from the store it
receives. -/
theorem singleBranch_keys_mem (env : Env) (chat_id : Int) (message : Message) (reply : Bool)
    (rid : Int) (uid : EventUid) (dest : List Int) (s0 : Store) (k : EventUid)
    (h : k ∈ s0.map Prod.fst) :
    k ∈ (singleBranch env chat_id message reply rid uid dest s0).1.map Prod.fst := by
  unfold singleBranch
  dsimp only
  split
  · exact h
  · split
    · exact h
    · split
      · split
        · split
          · exact dictSet_keys_mem s0 uid [] k h
          · rw [fanoutLoop_keys]
            exact dictSet_keys_mem s0 uid [] k h
        · exact dictSet_keys_mem s0 uid [] k h
      · rw [fanoutLoop_keys]
        exact dictSet_keys_mem s0 uid [] k h

/-- The single-message branch grows the store by at most one entry. -/
theorem singleBranch_length_le (env : Env) (chat_id : Int) (message : Message) (reply : Bool)
    (rid : Int) (uid : EventUid) (dest : List Int) (s0 : Store) :
    (singleBranch env chat_id message reply rid uid dest s0).1.length ≤ s0.length + 1 := by
  unfold singleBranch
  dsimp only
  split
  · exact Nat.le_succ _
  · split
    · exact Nat.le_succ _
    · split
      · split
        · split
          · exact dictSet_length_le s0 uid []
          · rw [fanoutLoop_length]
            exact dictSet_length_le s0 uid []
        · exact dictSet_length_le s0 uid []
      · rw [fanoutLoop_length]
        exact dictSet_length_le s0 uid []

/-- The new-message handler never removes a key that survived cleanup. -/
theorem newMessageHandler_keys_mem (env : Env) (ev : NMEvent) (s : Store) (k : EventUid)
    (h : k ∈ (storageCleanup env.cfg.keep_last_many s).map Prod.fst) :
    k ∈ (newMessageHandler env ev s).1.map Prod.fst := by
  unfold newMessageHandler
  dsimp only
  split
  · unfold storageCleanup at h
    split at h
    · exact mem_keys_of_mem_tail s k h
    · exact h
  · split
    · rw [albumBranch_keys]
      exact dictSet_keys_mem _ _ [] k h
    · exact singleBranch_keys_mem _ _ _ _ _ _ _ _ k h

/-- C1 (counterexample): at capacity K = 1, two puts through the new-message
handler leave the store with 2 entries, so the size measured immediately
after a put exceeds K — the cleanup only evicts when the size already
exceeds K before insertion. -/
theorem c1_counterexample :
    envK1.cfg.keep_last_many = 1
    ∧ (newMessageHandler envK1 evB (newMessageHandler envK1 evA []).1).1.length = 2 := by
  refine ⟨rfl, ?_⟩
  rfl

/-- C1 (amended): immediately after any put by the new/album handler, the
store size is at most K + 1 (and stays so forever); the bound K claimed by
the spec is exceeded by exactly one. -/
theorem c1_amended (env : Env) (ev : NMEvent) (s : Store)
    (h : s.length ≤ env.cfg.keep_last_many + 1) :
    (newMessageHandler env ev s).1.length ≤ env.cfg.keep_last_many + 1 := by
  have hc := storageCleanup_length_le env.cfg.keep_last_many s h
  cases ev with
  | album cid aid msgs =>
      unfold newMessageHandler
      dsimp only [nmChatId, nmUid]
      cases hft : env.from_to cid with
      | none => exact h
      | some dest =>
          dsimp only
          rw [albumBranch_length]
          have hd := dictSet_length_le (storageCleanup env.cfg.keep_last_many s) ⟨cid, aid⟩ []
          omega
  | single cid m rep rid =>
      unfold newMessageHandler
      dsimp only [nmChatId, nmUid]
      cases hft : env.from_to cid with
      | none => exact h
      | some dest =>
          dsimp only
          have hb := singleBranch_length_le env cid m rep rid ⟨cid, m.id⟩ dest
            (storageCleanup env.cfg.keep_last_many s)
          omega

/-- C1 (witness): the amended bound at a concrete input. -/
theorem c1_amended_witness :
    (newMessageHandler envA evA []).1.length ≤ envA.cfg.keep_last_many + 1 :=
  c1_amended envA evA [] (by decide)

/-- C2 (counterexample): at capacity K = 2 inserting A, B, C evicts
nothing — the store holds all three keys, A (the key the claim says is
evicted) included — because the cleanup runs before insertion and only
fires once the size already exceeds K. -/
theorem c2_counterexample :
    envK2.cfg.keep_last_many = 2
    ∧ put3.map Prod.fst = [⟨0, 10⟩, ⟨0, 11⟩, ⟨0, 12⟩] := by
  refine ⟨rfl, ?_⟩
  rfl

/-- C2 (amended): per insertion at most one entry is ever evicted and it is
the oldest one — every key except the oldest survives any put, and at or
under capacity every key survives; eviction fires only when the size before
insertion already exceeds K, so with K = 2 inserting A, B, C leaves
{A, B, C} and the next insertion D evicts A leaving {B, C, D}. -/
theorem c2_amended :
    (∀ (env : Env) (ev : NMEvent) (s : Store) (k : EventUid),
        k ∈ s.tail.map Prod.fst → k ∈ (newMessageHandler env ev s).1.map Prod.fst)
    ∧ (∀ (env : Env) (ev : NMEvent) (s : Store) (k : EventUid),
        s.length ≤ env.cfg.keep_last_many → k ∈ s.map Prod.fst →
          k ∈ (newMessageHandler env ev s).1.map Prod.fst)
    ∧ put3.map Prod.fst = [⟨0, 10⟩, ⟨0, 11⟩, ⟨0, 12⟩]
    ∧ put4.map Prod.fst = [⟨0, 11⟩, ⟨0, 12⟩, ⟨0, 13⟩] := by
  refine ⟨?_, ?_, rfl, rfl⟩
  · intro env ev s k h
    exact newMessageHandler_keys_mem env ev s k
      (storageCleanup_keys_of_tail env.cfg.keep_last_many s k h)
  · intro env ev s k hlen h
    refine newMessageHandler_keys_mem env ev s k ?_
    rw [storageCleanup_eq_of_le env.cfg.keep_last_many s hlen]
    exact h

/-- C2 (witness): a surviving non-oldest key at a concrete input. -/
theorem c2_amended_witness :
    (⟨0, 2⟩ : EventUid) ∈ (newMessageHandler envA evA sTwo).1.map Prod.fst :=
  c2_amended.1 envA evA sTwo ⟨0, 2⟩ (by decide)

/-- C3 (counterexample): a routed, non-dropped reply whose replied-to
record is absent produces no send at all — only the plugin invocation —
and leaves an empty record; the claim's per-destination sends do not
happen. -/
theorem c3_counterexample :
    envA.from_to 0 = some [1, 2]
    ∧ envA.apply_plugins msgR = some ⟨"t"⟩
    ∧ (newMessageHandler envA (.single 0 msgR true 19) []).2 = [Effect.transform msgR]
    ∧ dictGet (newMessageHandler envA (.single 0 msgR true 19) []).1 ⟨0, 20⟩ = some [] := by
  refine ⟨rfl, rfl, rfl, rfl⟩

/-- C3 (amended): for a routed, non-dropped single reply whose replied-to
record is found **and non-empty** after the empty record of the reply
itself is stored, the handler sends to each destination in order with that
destination's recorded handle id as reply target (none when that
destination has no handle — destination A's target never appears in B's
send), and records each returned handle. -/
theorem c3_amended (env : Env) (chat rid : Int) (m : Message) (s : Store) (dest : List Int)
    (tm : TM) (rf : ForwardRecord)
    (hroute : env.from_to chat = some dest)
    (hng : m.grouped_id = none)
    (htm : env.apply_plugins m = some tm)
    (hrf : dictGet (dictSet (storageCleanup env.cfg.keep_last_many s) ⟨chat, m.id⟩ []) ⟨chat, rid⟩
        = some rf)
    (hne : rf ≠ []) :
    (newMessageHandler env (.single chat m true rid) s).2
      = Effect.transform m
          :: dest.map (fun d => Effect.send d tm.text ((recGet rf d).map Handle.id))
    ∧ dictGet (newMessageHandler env (.single chat m true rid) s).1 ⟨chat, m.id⟩
      = some (dest.foldl (fun a d => recSet a d (env.sendRes d)) []) := by
  cases rf with
  | nil => exact absurd rfl hne
  | cons x xs =>
      unfold newMessageHandler singleBranch
      simp only [nmChatId, nmUid, hroute, hng, groupedTruthy, htm, hrf, List.isEmpty_cons,
        Bool.false_eq_true, if_false, if_true, ite_true, ite_false]
      constructor
      · rw [fanoutLoop_effects]
      · rw [fanoutLoop_get _ _ _ dest _ []
          (dictGet_dictSet_self (storageCleanup env.cfg.keep_last_many s) ⟨chat, m.id⟩ [])]

/-- C3 (witness): the amended reply behavior at a concrete input — the
reply target of destination 1 is its recorded handle id 7, destination 2's
target is none (its send had failed), and both returned handles are
recorded. -/
theorem c3_amended_witness :
    (newMessageHandler envA (.single 0 msgQ true 5) sReply).2
      = Effect.transform msgQ
          :: [1, 2].map (fun d =>
              Effect.send d (TM.mk "q").text ((recGet [(1, some ⟨7⟩), (2, none)] d).map Handle.id))
    ∧ dictGet (newMessageHandler envA (.single 0 msgQ true 5) sReply).1 ⟨0, 6⟩
      = some ([1, 2].foldl (fun a d => recSet a d (envA.sendRes d)) []) :=
  c3_amended envA 0 5 msgQ sReply [1, 2] ⟨"q"⟩ [(1, some ⟨7⟩), (2, none)]
    rfl rfl rfl (by decide) (by decide)

/-- On the sentinel path, every present destination handle gets a delete
call. -/
theorem trackedEditEffects_deleteHandle_mem (env : Env) (chat_id : Int) (m : Message)
    (hsent : env.cfg.delete_on_edit = m.text) :
    ∀ (r : ForwardRecord) (d : Int) (h : Handle), (d, some h) ∈ r →
      Effect.deleteHandle h ∈ trackedEditEffects env chat_id m r := by
  intro r
  induction r with
  | nil => intro d h hm; simp at hm
  | cons p ps ih =>
      intro d h hm
      simp only [trackedEditEffects, if_pos hsent, List.mem_append]
      rcases List.mem_cons.mp hm with h1 | h1
      · left
        rw [← h1]
        simp
      · right
        exact ih d h h1

/-- On the sentinel path with a non-empty record, the source message gets a
delete call. -/
theorem trackedEditEffects_deleteSource_mem (env : Env) (chat_id : Int) (m : Message)
    (hsent : env.cfg.delete_on_edit = m.text) (r : ForwardRecord) (hne : r ≠ []) :
    Effect.deleteSource chat_id m.id ∈ trackedEditEffects env chat_id m r := by
  cases r with
  | nil => exact absurd rfl hne
  | cons p ps =>
      simp only [trackedEditEffects, if_pos hsent, List.mem_append]
      left
      simp

/-- The sentinel path performs no text edit. -/
theorem trackedEditEffects_no_edit (env : Env) (chat_id : Int) (m : Message)
    (hsent : env.cfg.delete_on_edit = m.text) :
    ∀ (r : ForwardRecord) (h : Handle) (t : String),
      Effect.editHandle h t ∉ trackedEditEffects env chat_id m r := by
  intro r
  induction r with
  | nil => intro h t hm; simp [trackedEditEffects] at hm
  | cons p ps ih =>
      intro h t hm
      simp only [trackedEditEffects, if_pos hsent, List.mem_append] at hm
      rcases hm with h1 | h1
      · cases hp : p.2 <;> simp [hp] at h1
      · exact ih h t h1

/-- The fresh-send fallback sends the transformed message once per
destination, interleaved with one plugin call per destination. -/
theorem fallbackSends_eq_flatten (env : Env) (m : Message) (tm : TM)
    (htm : env.apply_plugins m = some tm) :
    ∀ ds : List Int,
      fallbackSends env m ds
        = List.flatten (ds.map (fun d => [Effect.transform m, Effect.send d tm.text none])) := by
  intro ds
  induction ds with
  | nil => rfl
  | cons d ds ih => simp [fallbackSends, htm, ih]

/-- Grouped-send effects pass the grouped-send filter unchanged. -/
theorem filter_isSendFile_map (ds : List Int) (media : List Nat) (caps : List String) :
    (ds.map (fun d => Effect.sendFile d media caps)).filter Effect.isSendFile
      = ds.map (fun d => Effect.sendFile d media caps) := by
  induction ds with
  | nil => rfl
  | cons d ds ih => simp [Effect.isSendFile, ih]

/-- The caption-edit inner loop issues no grouped send. -/
theorem destEdits_no_sendFile (r : ForwardRecord) (t : String) :
    ∀ ds : List Int, (destEdits r t ds).filter Effect.isSendFile = [] := by
  intro ds
  induction ds with
  | nil => rfl
  | cons d ds ih =>
      simp only [destEdits, List.filter_append, ih]
      cases recGet r d <;> simp [Effect.isSendFile]

/-- The caption-edit phase issues no grouped send. -/
theorem captionEdits_no_sendFile (env : Env) (r : ForwardRecord) (dest : List Int) :
    ∀ ms : List Message, (captionEdits env r dest ms).filter Effect.isSendFile = [] := by
  intro ms
  induction ms with
  | nil => rfl
  | cons m ms ih =>
      simp only [captionEdits, List.filter_cons, List.filter_append, ih]
      cases happ : env.apply_plugins m with
      | none => simp [Effect.isSendFile]
      | some tm =>
          by_cases ht : tm.text = m.text
          · simp [Effect.isSendFile, ht]
          · simp [Effect.isSendFile, ht, destEdits_no_sendFile]

/-- The tracked non-sentinel edit path calls the plugins once per stored
record entry. -/
theorem countTransform_tracked (env : Env) (chat_id : Int) (m : Message)
    (hns : env.cfg.delete_on_edit ≠ m.text) :
    ∀ r : ForwardRecord, countTransform (trackedEditEffects env chat_id m r) = r.length := by
  intro r
  induction r with
  | nil => rfl
  | cons p ps ih =>
      simp only [trackedEditEffects, if_neg hns, countTransform, List.countP_append,
        List.countP_cons] at ih ⊢
      have hinner :
          (match env.apply_plugins m, p.2 with
            | some tm, some h => if tm.text = "" then [] else [Effect.editHandle h tm.text]
            | _, _ => ([] : List Effect)).countP Effect.isTransform = 0 := by
        cases happ : env.apply_plugins m with
        | none => cases p.2 <;> simp
        | some tm =>
            cases p.2 with
            | none => simp
            | some h =>
                by_cases ht : tm.text = ""
                · simp [ht]
                · simp [ht, Effect.isTransform]
      simp [Effect.isTransform, hinner, ih, Nat.add_comm]

/-- The fallback path calls the plugins once per destination. -/
theorem countTransform_fallback (env : Env) (m : Message) :
    ∀ ds : List Int, countTransform (fallbackSends env m ds) = ds.length := by
  intro ds
  induction ds with
  | nil => rfl
  | cons d ds ih =>
      simp only [fallbackSends, countTransform, List.countP_cons, List.countP_append] at ih ⊢
      cases happ : env.apply_plugins m <;>
        simp [Effect.isTransform, ih, Nat.add_comm]

/-- C4 (counterexample): message 10 is mirrored to handles 101 and 102,
then edited to the sentinel "DELETE"; the handler deletes both handles and
the source message, but afterwards the record still maps both destinations
to their handles — the destination handle does **not** become absent. -/
theorem c4_counterexample :
    envA.cfg.delete_on_edit = "DELETE"
    ∧ dictGet sM1 ⟨0, 10⟩ = some [(1, some ⟨101⟩), (2, some ⟨102⟩)]
    ∧ (editedMessageHandler envA 0 msgAdel sM1).2
        = [Effect.deleteHandle ⟨101⟩, Effect.deleteSource 0 10,
           Effect.deleteHandle ⟨102⟩, Effect.deleteSource 0 10]
    ∧ dictGet (editedMessageHandler envA 0 msgAdel sM1).1 ⟨0, 10⟩
        = some [(1, some ⟨101⟩), (2, some ⟨102⟩)] := by
  refine ⟨rfl, rfl, rfl, rfl⟩

/-- C4 (amended): a sentinel edit of a tracked message deletes every
present destination handle and the source message and performs no text
edit; afterwards the record remains in the store **unchanged** — the
destination handles stay present in the record (only the remote messages
were deleted). -/
theorem c4_amended (env : Env) (chat : Int) (m : Message) (s : Store) (r : ForwardRecord)
    (dest : List Int)
    (hroute : env.from_to chat = some dest)
    (hget : dictGet s ⟨chat, m.id⟩ = some r)
    (hne : r ≠ [])
    (hsent : env.cfg.delete_on_edit = m.text) :
    (editedMessageHandler env chat m s).1 = s
    ∧ dictGet (editedMessageHandler env chat m s).1 ⟨chat, m.id⟩ = some r
    ∧ (∀ (d : Int) (h : Handle), (d, some h) ∈ r →
        Effect.deleteHandle h ∈ (editedMessageHandler env chat m s).2)
    ∧ Effect.deleteSource chat m.id ∈ (editedMessageHandler env chat m s).2
    ∧ (∀ (h : Handle) (t : String),
        Effect.editHandle h t ∉ (editedMessageHandler env chat m s).2) := by
  cases r with
  | nil => exact absurd rfl hne
  | cons x xs =>
      have hred : editedMessageHandler env chat m s
          = (s, trackedEditEffects env chat m (x :: xs)) := by
        unfold editedMessageHandler
        simp [hroute, hget]
      rw [hred]
      exact ⟨rfl, hget,
        fun d h hm => trackedEditEffects_deleteHandle_mem env chat m hsent (x :: xs) d h hm,
        trackedEditEffects_deleteSource_mem env chat m hsent (x :: xs) (by simp),
        fun h t => trackedEditEffects_no_edit env chat m hsent (x :: xs) h t⟩

/-- C4 (witness): the amended sentinel behavior at a concrete input. -/
theorem c4_amended_witness :
    Effect.deleteHandle ⟨101⟩ ∈ (editedMessageHandler envA 0 msgAdel sM1).2 :=
  (c4_amended envA 0 msgAdel sM1 [(1, some ⟨101⟩), (2, some ⟨102⟩)] [1, 2]
      rfl (by decide) (by decide) rfl).2.2.1 1 ⟨101⟩ (by decide)

/-- C5 (confirmed): the deleted handler never writes the store — the store
(and hence the record and the store size) is unchanged; on a routed message
with a stored record it deletes exactly the present destination handles,
and with no record it does nothing. -/
theorem c5_deleted_frame (env : Env) (chat mid : Int) (s : Store) :
    (deletedMessageHandler env chat mid s).1 = s
    ∧ (∀ (dest : List Int) (r : ForwardRecord), env.from_to chat = some dest →
        dictGet s ⟨chat, mid⟩ = some r →
          (deletedMessageHandler env chat mid s).2
            = r.filterMap (fun p => p.2.map Effect.deleteHandle))
    ∧ (dictGet s ⟨chat, mid⟩ = none → (deletedMessageHandler env chat mid s).2 = []) := by
  refine ⟨?_, ?_, ?_⟩
  · unfold deletedMessageHandler
    split
    · rfl
    · split
      · split <;> rfl
      · rfl
  · intro dest r hroute hget
    unfold deletedMessageHandler
    simp only [hroute, hget]
    cases r with
    | nil => simp
    | cons x xs => simp
  · intro hget
    unfold deletedMessageHandler
    split
    · rfl
    · simp only [hget]

/-- C5 (witness): the deletion trace and frame at a concrete input. -/
theorem c5_deleted_frame_witness :
    (deletedMessageHandler envA 0 10 sM1).2
      = [(1, some (⟨101⟩ : Handle)), (2, some ⟨102⟩)].filterMap
          (fun p => p.2.map Effect.deleteHandle) :=
  (c5_deleted_frame envA 0 10 sM1).2.1 [1, 2] [(1, some ⟨101⟩), (2, some ⟨102⟩)]
    rfl (by decide)

/-- C6 (confirmed): an edit of a routed message with no stored record falls
back to a first send — one plugin call and one send per destination, in
order — and writes nothing to the store (no record is created). -/
theorem c6_fallback (env : Env) (chat : Int) (m : Message) (s : Store) (dest : List Int)
    (tm : TM)
    (hroute : env.from_to chat = some dest)
    (hget : dictGet s ⟨chat, m.id⟩ = none)
    (htm : env.apply_plugins m = some tm) :
    (editedMessageHandler env chat m s).1 = s
    ∧ (editedMessageHandler env chat m s).2
        = List.flatten (dest.map (fun d => [Effect.transform m, Effect.send d tm.text none])) := by
  unfold editedMessageHandler
  simp only [hroute, hget]
  exact ⟨trivial, fallbackSends_eq_flatten env m tm htm dest⟩

/-- C6 (witness): the fallback behavior at a concrete input. -/
theorem c6_fallback_witness :
    (editedMessageHandler envA 0 msgE sM1).1 = sM1
    ∧ (editedMessageHandler envA 0 msgE sM1).2
        = List.flatten ([1, 2].map (fun d =>
            [Effect.transform msgE, Effect.send d (TM.mk "e").text none])) :=
  c6_fallback envA 0 msgE sM1 [1, 2] ⟨"e"⟩ rfl (by decide) rfl

/-- C7 (confirmed): a routed album with attribution disabled and at least
one media item produces exactly one grouped send per destination, in
destination order, each carrying all collected media and the per-item
captions in album order, and records the first resulting handle per
destination. -/
theorem c7_album (env : Env) (chat aid : Int) (ms : List Message) (s : Store)
    (dest : List Int)
    (hroute : env.from_to chat = some dest)
    (hattr : env.cfg.show_forwarded_from = false)
    (hmedia : collectMedia ms ≠ []) :
    ((newMessageHandler env (.album chat aid ms) s).2).filter Effect.isSendFile
      = dest.map (fun d =>
          Effect.sendFile d ((collectMedia ms).map Prod.fst) ((collectMedia ms).map Prod.snd))
    ∧ dictGet (newMessageHandler env (.album chat aid ms) s).1 ⟨chat, aid⟩
      = some (dest.foldl (fun a d => recSet a d ((env.sendFileRes d).head?)) []) := by
  cases hcm : collectMedia ms with
  | nil => exact absurd hcm hmedia
  | cons u us =>
      unfold newMessageHandler albumBranch
      simp only [nmChatId, nmUid, hroute, hattr, hcm, List.isEmpty_cons, Bool.false_eq_true,
        if_false, ite_false]
      constructor
      · rw [List.filter_append, fanoutLoop_effects, filter_isSendFile_map,
          captionEdits_no_sendFile, List.append_nil]
      · rw [fanoutLoop_get _ _ _ dest _ []
          (dictGet_dictSet_self (storageCleanup env.cfg.keep_last_many s) ⟨chat, aid⟩ [])]

/-- C7 (witness): the album scenario — three photos with captions x, y, z
yield one grouped send per destination carrying the three media items and
the three captions in order. -/
theorem c7_album_witness :
    ((newMessageHandler envA (.album 0 40 albumMsgs) []).2).filter Effect.isSendFile
      = [1, 2].map (fun d =>
          Effect.sendFile d ((collectMedia albumMsgs).map Prod.fst)
            ((collectMedia albumMsgs).map Prod.snd))
    ∧ dictGet (newMessageHandler envA (.album 0 40 albumMsgs) []).1 ⟨0, 40⟩
      = some ([1, 2].foldl (fun a d => recSet a d ((envA.sendFileRes d).head?)) []) :=
  c7_album envA 0 40 albumMsgs [] [1, 2] rfl rfl (by decide)

/-- C8 (confirmed): for a routed single message that the plugins drop, the
handler performs the cleanup (evicting the oldest entry exactly when the
size exceeds K) and then returns after the one plugin call: no record is
created and no transport call happens, yet the store may shrink. -/
theorem c8_drop_evicts (env : Env) (chat : Int) (m : Message) (rep : Bool) (rid : Int)
    (s : Store) (dest : List Int)
    (hroute : env.from_to chat = some dest)
    (hng : m.grouped_id = none)
    (hdrop : env.apply_plugins m = none) :
    newMessageHandler env (.single chat m rep rid) s
      = (if env.cfg.keep_last_many < s.length then s.tail else s, [Effect.transform m]) := by
  unfold newMessageHandler singleBranch storageCleanup
  simp only [nmChatId, nmUid, hroute, hng, groupedTruthy, hdrop, Bool.false_eq_true, if_false,
    ite_false]

/-- C8 (witness): the drop-with-eviction behavior at a concrete
over-capacity input. -/
theorem c8_drop_evicts_witness :
    newMessageHandler envK2 (.single 0 msgDrop false 0) sOver
      = (if envK2.cfg.keep_last_many < sOver.length then sOver.tail else sOver,
         [Effect.transform msgDrop]) :=
  c8_drop_evicts envK2 0 msgDrop false 0 sOver [1, 2] rfl rfl rfl

/-- C9 (confirmed): a stored but empty record is treated exactly like an
absent one — the edited handler takes the fresh-send fallback and the
deleted handler does nothing, matching the handlers' behavior on any store
without the record. -/
theorem c9_empty_record (env : Env) (chat : Int) (m : Message) (s : Store) (dest : List Int)
    (hroute : env.from_to chat = some dest)
    (hget : dictGet s ⟨chat, m.id⟩ = some []) :
    editedMessageHandler env chat m s = (s, fallbackSends env m dest)
    ∧ deletedMessageHandler env chat m.id s = (s, [])
    ∧ (∀ s2 : Store, dictGet s2 ⟨chat, m.id⟩ = none →
        (editedMessageHandler env chat m s).2 = (editedMessageHandler env chat m s2).2
        ∧ (deletedMessageHandler env chat m.id s).2 = (deletedMessageHandler env chat m.id s2).2) := by
  have he : editedMessageHandler env chat m s = (s, fallbackSends env m dest) := by
    unfold editedMessageHandler
    simp [hroute, hget]
  have hd : deletedMessageHandler env chat m.id s = (s, []) := by
    unfold deletedMessageHandler
    simp [hroute, hget]
  refine ⟨he, hd, ?_⟩
  intro s2 hg2
  constructor
  · rw [he]
    unfold editedMessageHandler
    simp [hroute, hg2]
  · rw [hd]
    unfold deletedMessageHandler
    simp [hroute, hg2]

/-- C9 (witness): the empty-record fallback at a concrete input. -/
theorem c9_empty_record_witness :
    editedMessageHandler envA 0 msgF sEmptyRec = (sEmptyRec, fallbackSends envA msgF [1, 2]) :=
  (c9_empty_record envA 0 msgF sEmptyRec [1, 2] rfl (by decide)).1

/-- C10 (confirmed): the edited handler calls the plugins once per stored
record entry on the tracked non-sentinel path, and once per destination on
the record-not-found fallback path. -/
theorem c10_transform_calls (env : Env) (chat : Int) (m : Message) (s : Store)
    (dest : List Int)
    (hroute : env.from_to chat = some dest) :
    (∀ r : ForwardRecord, dictGet s ⟨chat, m.id⟩ = some r → r ≠ [] →
        env.cfg.delete_on_edit ≠ m.text →
          countTransform (editedMessageHandler env chat m s).2 = r.length)
    ∧ (dictGet s ⟨chat, m.id⟩ = none →
        countTransform (editedMessageHandler env chat m s).2 = dest.length) := by
  constructor
  · intro r hget hne hns
    cases r with
    | nil => exact absurd rfl hne
    | cons x xs =>
        unfold editedMessageHandler
        simp only [hroute, hget, List.isEmpty_cons, Bool.false_eq_true, if_false, ite_false]
        exact countTransform_tracked env chat m hns (x :: xs)
  · intro hget
    unfold editedMessageHandler
    simp only [hroute, hget]
    exact countTransform_fallback env m dest

/-- C10 (witness): two destinations and a two-entry record give two plugin
calls on the tracked path. -/
theorem c10_transform_calls_witness :
    countTransform (editedMessageHandler envA 0 msgAedit sM1).2
      = [(1, some (⟨101⟩ : Handle)), (2, some ⟨102⟩)].length :=
  (c10_transform_calls envA 0 msgAedit sM1 [1, 2] rfl).1
    [(1, some ⟨101⟩), (2, some ⟨102⟩)] (by decide) (by decide) (by decide)

end Tgcf
